import Mathlib

/-!
Verification development for the MusRen audio-file enrichment and rename
pipeline, shallowly embedded from the Python sources
(`src/core/audio_processor.py`, `src/core/artwork.py`, `src/utils/tools.py`).

Pure fragments of the Python code are translated into executable Lean
definitions; filesystem state (the working directory) is made explicit as a
list of named files threaded through the rename operations.  External
capabilities (the AcoustID recognizer, the lyrics service, the three cover
services) are modelled as oracle parameters, since the embedded code only
branches on their reported results.
-/

/-! ## Python string primitives -/

/-- Characters removed by Python `str.strip()` (ASCII whitespace). -/
def pyWhitespace : List Char := [' ', '\t', '\n', '\r', '\x0b', '\x0c']

/-- Python `str.strip(chars)`: remove the given characters from both ends. -/
def pyStrip (chars : List Char) (s : String) : String :=
  ⟨((s.data.dropWhile (· ∈ chars)).reverse.dropWhile (· ∈ chars)).reverse⟩

/-- Python `str.upper()` restricted to ASCII case mapping. -/
def pyUpper (s : String) : String :=
  ⟨s.data.map Char.toUpper⟩

/-- Python slice `s[:k]` where `k` may be negative (counts from the end,
clamped at zero). -/
def pySliceTo (s : String) (k : Int) : String :=
  if k < 0 then ⟨s.data.take (s.data.length - k.natAbs)⟩
  else ⟨s.data.take k.toNat⟩

/-- `os.path.splitext` on a bare file name (no directory separators), on the
character list: split at the last dot unless every character before it is a
dot (CPython `genericpath._splitext`). -/
def splitextData (cs : List Char) : List Char × List Char :=
  match (cs.reverse.findIdx? (· = '.')) with
  | none => (cs, [])
  | some ri =>
    let dotIdx := cs.length - 1 - ri
    if (cs.take dotIdx).all (· = '.') then (cs, [])
    else (cs.take dotIdx, cs.drop dotIdx)

/-- `os.path.splitext` on a bare file name. -/
def pySplitext (s : String) : String × String :=
  (⟨(splitextData s.data).1⟩, ⟨(splitextData s.data).2⟩)

/-- Decimal digits of a natural number, little-endian, with explicit fuel
(enough fuel is always supplied by callers). -/
def decDigitsF : Nat → Nat → List Nat
  | 0, _ => []
  | fuel + 1, n => if n = 0 then [] else (n % 10) :: decDigitsF fuel (n / 10)

/-- The character of a decimal digit. -/
def decDigitChar (d : Nat) : Char :=
  Char.ofNat (48 + d)

/-- Decimal rendering of a natural number (Python `str(n)` / f-string
interpolation of an `int`). -/
def natToDecimal (n : Nat) : String :=
  if n = 0 then "0" else ⟨((decDigitsF n n).map decDigitChar).reverse⟩

/-- Python truthiness-based `or` on optional strings (`None` and `""` are
falsy). -/
def pyOrStr (a b : Option String) : Option String :=
  match a with
  | some s => if s = "" then b else some s
  | none => b

/-- Python `str.replace(pat, rep)` (all occurrences, non-empty pattern),
with fuel for structural recursion. -/
def pyReplaceAux (pat rep : List Char) : Nat → List Char → List Char
  | 0, cs => cs
  | _ + 1, [] => []
  | fuel + 1, c :: cs =>
    if pat.isPrefixOf (c :: cs) then
      rep ++ pyReplaceAux pat rep fuel ((c :: cs).drop pat.length)
    else
      c :: pyReplaceAux pat rep fuel cs

/-- Python `str.replace` for a non-empty pattern. -/
def pyReplace (s pat rep : String) : String :=
  ⟨pyReplaceAux pat.data rep.data s.data.length s.data⟩

/-! ## `AudioProcessor._sanitize_filename` -/

/-- Characters matched by the Windows-branch regex
`[<>:"/\\|?*\x00-\x1f]` in `_sanitize_filename`. -/
def windows_invalid (c : Char) : Bool :=
  c ∈ ['<', '>', ':', '"', '/', '\\', '|', '?', '*'] || c.toNat ≤ 0x1f

/-- Windows reserved device names from `_sanitize_filename`. -/
def forbidden_names : List String :=
  ["CON", "PRN", "AUX", "NUL",
   "COM1", "COM2", "COM3", "COM4", "COM5", "COM6", "COM7", "COM8", "COM9",
   "LPT1", "LPT2", "LPT3", "LPT4", "LPT5", "LPT6", "LPT7", "LPT8", "LPT9"]

/-- The OS-dialect branch of `_sanitize_filename` followed by the common
`strip()` of surrounding whitespace; this is the value of the local
`sanitized` just before length truncation. -/
def sanitizePre (os_type : String) (filename : String) : String :=
  let sanitized :=
    if os_type = "Windows" then
      let s : String := ⟨filename.data.filter (fun c => ¬ windows_invalid c)⟩
      if pyUpper s ∈ forbidden_names then "_" ++ s else s
    else
      pyStrip ['.'] ⟨filename.data.map (fun c => if c = '/' then '-' else c)⟩
  pyStrip pyWhitespace sanitized

/-- The local `base` of `_sanitize_filename` after the truncation step:
`base[: 255 - len(ext) - 1]` when the stripped name is longer than 255
characters, the untouched stem otherwise. -/
def truncatedBase (os_type : String) (filename : String) : String :=
  let san := sanitizePre os_type filename
  let base := (pySplitext san).1
  let ext := (pySplitext san).2
  if 255 < san.length then pySliceTo base ((255 : Int) - ext.length - 1) else base

/-- `AudioProcessor._sanitize_filename`: dialect-specific character cleanup,
whitespace strip, length cap (`base[: 255 - len(ext) - 1]` when the name is
longer than 255 characters) and the empty-stem fallback. -/
def sanitize_filename (os_type : String) (filename : String) : String :=
  let san := sanitizePre os_type filename
  let ext := (pySplitext san).2
  let base2 := truncatedBase os_type filename
  let san2 := if 255 < san.length then base2 ++ ext else san
  if base2 = "" then "audio_file" ++ ext else san2

/-! ## Filesystem model -/

/-- A directory entry: a file name together with its readable audio tags
(`none` models a file `mutagen.File` cannot read or one without tags). -/
structure FsTags where
  artist : Option String
  title : Option String
deriving DecidableEq, Repr

/-- A file on disk.  Identity is the whole record; renaming changes only
`name`. -/
structure FsFile where
  name : String
  tags : Option FsTags
deriving DecidableEq, Repr

/-- The working directory: a finite list of files with distinct names. -/
abbrev Dir := List FsFile

/-- The names present in the directory (`os.listdir`). -/
def namesOf (dir : Dir) : List String :=
  dir.map FsFile.name

/-- Modelled from the spec: `constants/values.py` (the `AUDIO_EXTENSIONS`
constant imported by `utils/tools.py`) is not part of the sources; §6 of the
spec fixes only "a fixed configured set of audio extensions".  The concrete
set below is one such set; no claim depends on its exact contents. -/
def AUDIO_EXTENSIONS : List String :=
  [".mp3", ".flac", ".m4a", ".ogg", ".wav", ".wma", ".aac"]

/-- `f.lower().endswith(audio_extensions)` from `utils/tools.get_audio_files`
(ASCII lowercasing applied characterwise). -/
def isAudioFile (name : String) : Bool :=
  AUDIO_EXTENSIONS.any (fun e => List.isSuffixOf e.data (name.data.map Char.toLower))

/-- `utils/tools.get_audio_files`: the directory listing filtered to audio
extensions. -/
def get_audio_files (dir : Dir) : List String :=
  (namesOf dir).filter (fun n => isAudioFile n)

/-- Look up a directory entry by name (the first one, as a filesystem would). -/
def findFile (dir : Dir) (name : String) : Option FsFile :=
  dir.find? (fun f => f.name == name)

/-- `os.rename`: the entry named `old` is renamed to `new`; other entries
(and the tags of the renamed file) are untouched. -/
def renameFile (dir : Dir) (old new : String) : Dir :=
  dir.map (fun f => if f.name = old then { f with name := new } else f)

/-- The collision candidate `f"{base} ({counter}){ext}"` from
`_safe_rename`. -/
def collisionName (base ext : String) (n : Nat) : String :=
  base ++ " (" ++ natToDecimal n ++ ")" ++ ext

/-- The `while os.path.exists(new_path)` loop of `_safe_rename`, trying
counters `n, n+1, ...`; the fuel provided by `resolveCollision` is proved
sufficient below. -/
def collisionLoop (names : List String) (base ext : String) : Nat → Nat → String
  | 0, n => collisionName base ext n
  | fuel + 1, n =>
    if collisionName base ext n ∈ names then collisionLoop names base ext fuel (n + 1)
    else collisionName base ext n

/-- Collision resolution in `_safe_rename`: if the sanitized name already
exists, append `" (N)"` before the extension, `N = 1, 2, ...`, until a free
name is found. -/
def resolveCollision (names : List String) (name : String) : String :=
  if name ∈ names then
    collisionLoop names (pySplitext name).1 (pySplitext name).2 (names.length + 1) 1
  else name

/-- `AudioProcessor._safe_rename`: returns `(final_name, change_made)` and
the updated directory.  The raw-name no-op check, sanitization, collision
resolution and the `OSError` branch (the source file no longer exists — the
only rename failure a pure directory model can exhibit) follow the source. -/
def safe_rename (os_type : String) (dir : Dir) (old_name new_name : String) :
    String × Bool × Dir :=
  if old_name = new_name then (old_name, false, dir)
  else
    let n2 := sanitize_filename os_type new_name
    let final := resolveCollision (namesOf dir) n2
    if old_name ∈ namesOf dir then (final, true, renameFile dir old_name final)
    else (old_name, false, dir)

/-- `not artist or not title or artist == "Unknown Artist" or
title == "Unknown Title"` from `rename_files`. -/
def bad_check (artist title : String) : Bool :=
  (artist == "") || (title == "") || (artist == "Unknown Artist") || (title == "Unknown Title")

/-- The skip condition of `rename_files` for a whole directory entry:
unreadable/absent tags, or empty or placeholder artist/title. -/
def bad_tags (f : FsFile) : Bool :=
  match f.tags with
  | none => true
  | some t => bad_check (t.artist.getD "") (t.title.getD "")

/-- The body of the `for file in files` loop of `AudioProcessor.rename_files`,
acting on the directory and the accumulated change set. -/
def rename_step (os_type : String) (st : Dir × List (String × String)) (file : String) :
    Dir × List (String × String) :=
  match findFile st.1 file with
  | none => st
  | some f =>
    match f.tags with
    | none => st
    | some t =>
      let artist := t.artist.getD ""
      let title := t.title.getD ""
      if bad_check artist title then st
      else
        let new_name := artist ++ " - " ++ title ++ (pySplitext file).2
        let r := safe_rename os_type st.1 file new_name
        (r.2.2, if r.2.1 then st.2 ++ [(r.1, file)] else st.2)

/-- `AudioProcessor.rename_files`: one sequential pass over the audio files
listed at the start, returning the final directory and the change set
(`new_name ↦ original_name`, in insertion order). -/
def rename_files (os_type : String) (dir : Dir) : Dir × List (String × String) :=
  (get_audio_files dir).foldl (rename_step os_type) (dir, [])

/-- The loop of `AudioProcessor.undo_rename` with the `files` snapshot taken
before the loop made explicit. -/
def undoLoop (os_type : String) (files : List String)
    (changes : List (String × String)) (dir : Dir) : Dir :=
  changes.foldl
    (fun d p => if p.1 ∈ files then (safe_rename os_type d p.1 p.2).2.2 else d) dir

/-- `AudioProcessor.undo_rename`: re-list the directory once, then for every
recorded `new_name ↦ old_name` still present in that snapshot, rename it
back via `_safe_rename`. -/
def undo_rename (os_type : String) (changes : List (String × String)) (dir : Dir) : Dir :=
  undoLoop os_type (get_audio_files dir) changes dir

/-- The intended effect of an exact undo: each recorded new name renamed
back to its original name, in change-set order. -/
def restoreAll (changes : List (String × String)) (dir : Dir) : Dir :=
  changes.foldl (fun d p => renameFile d p.1 p.2) dir

/-! ## `AudioProcessor.process_files` (batch coordination) -/

/-- `AudioProcessor._process_files_with_lyrics`: one task per file; a task
result of `Except.error e` models an uncaught exception from the task, which
the collector records as that file's `{"error": str(e)}` outcome.  The
aggregate is keyed by file name; the task for one file never influences the
outcome stored for another. -/
def process_files_with_lyrics {V : Type} (task : String → Bool → Except String V)
    (use_recognition : Bool) (files : List String) : List (String × Except String V) :=
  files.map (fun f => (f, task f use_recognition))

/-- `AudioProcessor.process_files`: returns the empty result map when there
are no files or when `process_lyrics` is not set; otherwise delegates to
`_process_files_with_lyrics`. -/
def process_files {V : Type} (task : String → Bool → Except String V)
    (use_recognition process_lyrics : Bool) (files : List String) :
    List (String × Except String V) :=
  if files.isEmpty then []
  else if process_lyrics then process_files_with_lyrics task use_recognition files
  else []

/-! ## `AudioProcessor._process_file_with_lyrics` (per-file enrichment) -/

/-- The result of one `_recognize_song` oracle call, as consumed by
`_process_file_with_lyrics` (`status`, and the fields read from the result
dictionary; absent keys are `none`). -/
structure Recognition where
  status : Bool
  artist : Option String
  title : Option String
  album : Option String
  score : Option Nat
  message : Option String
deriving DecidableEq, Repr

/-- The result of one `_fetch_synced_lyrics` oracle call. -/
structure LyricsResult where
  status : Bool
  lyrics : String
  message : Option String
deriving DecidableEq, Repr

/-- The per-file outcome dictionary built by `_process_file_with_lyrics`;
each field is `none` when the corresponding key is never set. -/
structure FileResult where
  recognition : Option Bool := none
  artist : Option String := none
  title : Option String := none
  album : Option String := none
  score : Option Nat := none
  metadata_updated : Option Bool := none
  recognition_error : Option String := none
  lyrics_found : Option Bool := none
  lyrics_embedded : Option Bool := none
  embed_error : Option String := none
  lyrics_error : Option String := none
deriving DecidableEq, Repr

/-- `audio.get("artist", ["Unknown Artist"])[0] if audio else "Unknown Artist"`. -/
def currentArtist (audio : Option FsTags) : String :=
  match audio with
  | none => "Unknown Artist"
  | some t => t.artist.getD "Unknown Artist"

/-- `audio.get("title", ["Unknown Title"])[0] if audio else "Unknown Title"`. -/
def currentTitle (audio : Option FsTags) : String :=
  match audio with
  | none => "Unknown Title"
  | some t => t.title.getD "Unknown Title"

/-- The recognition gate of `_process_file_with_lyrics`:
`use_recognition and (current_artist == "Unknown Artist" or
current_title == "Unknown Title")`. -/
def needs_recognition (use_recognition : Bool) (current_artist current_title : String) : Bool :=
  use_recognition &&
    ((current_artist == "Unknown Artist") || (current_title == "Unknown Title"))

/-- `AudioProcessor._process_file_with_lyrics` with its external calls as
oracles: `rec` is the value `_recognize_song(file_path)` would return, `upd`
the success of `_update_audio_metadata`, `lyr` the lyrics lookup keyed by
artist and title, `emb` the success of `_embed_lyrics` on given lyrics. -/
def process_file_with_lyrics (audio : Option FsTags) (use_recognition : Bool)
    (rec : Recognition) (upd : Recognition → Bool)
    (lyr : String → String → LyricsResult) (emb : String → Bool) : FileResult :=
  let ca := currentArtist audio
  let ct := currentTitle audio
  let step1 : FileResult × String × String :=
    if needs_recognition use_recognition ca ct then
      if rec.status then
        ({ recognition := some true
         , artist := some (rec.artist.getD "")
         , title := some (rec.title.getD "")
         , album := some (rec.album.getD "")
         , score := some (rec.score.getD 0)
         , metadata_updated := some (upd rec) },
         rec.artist.getD "", rec.title.getD "")
      else
        ({ recognition := some false
         , recognition_error := some (rec.message.getD "Unknown error") }, ca, ct)
    else ({}, ca, ct)
  let lr := lyr step1.2.1 step1.2.2
  if lr.status then
    if emb lr.lyrics then
      { step1.1 with lyrics_found := some true, lyrics_embedded := some true }
    else
      { step1.1 with lyrics_found := some true, lyrics_embedded := some false
                   , embed_error := some "Error embedding lyrics" }
  else
    { step1.1 with lyrics_found := some false
                 , lyrics_error := some (lr.message.getD "Unknown error") }

/-! ## `_recognize_song`: track/disc extraction from the release graph -/

/-- A JSON-ish scalar/list value as stored in the metadata dictionary and in
the AcoustID lookup response. -/
inductive PyVal where
  | str (s : String)
  | nat (n : Nat)
  | bool (b : Bool)
  | strs (l : List String)
deriving DecidableEq, Repr

/-- Python `str()` of a metadata value (list rendering follows `repr` of a
list of strings without escaping embedded quotes). -/
def pyStr : PyVal → String
  | .str s => s
  | .nat n => natToDecimal n
  | .bool b => if b then "True" else "False"
  | .strs l =>
    "[" ++ String.intercalate ", " (l.map (fun s => "\x27" ++ s ++ "\x27")) ++ "]"

/-- A track inside a medium of the AcoustID `releases` response. -/
structure MBTrack where
  id : Option String
  position : Option PyVal
deriving DecidableEq, Repr

/-- A medium inside a release of the AcoustID `releases` response. -/
structure MBMedium where
  position : Option PyVal
  track_count : Option PyVal
  tracks : Option (List MBTrack)
deriving DecidableEq, Repr

/-- A release of the AcoustID `releases` response. -/
structure MBRelease where
  medium_count : Option PyVal
  mediums : Option (List MBMedium)
deriving DecidableEq, Repr

/-- The four keys `_recognize_song` assigns when a track matches. -/
structure TrackDiscInfo where
  tracknumber : PyVal
  discnumber : PyVal
  totaltracks : PyVal
  totaldiscs : PyVal
deriving DecidableEq, Repr

/-- The values assigned on a match: `track.get("position", "")`,
`medium.get("position", "")`, `medium.get("track-count", "")`,
`release.get("medium-count", "")`. -/
def mkTrackDiscInfo (rel : MBRelease) (med : MBMedium) (tr : MBTrack) : TrackDiscInfo :=
  ⟨tr.position.getD (.str ""), med.position.getD (.str ""),
   med.track_count.getD (.str ""), rel.medium_count.getD (.str "")⟩

/-- The `for track in medium["tracks"]` loop: each matching track overwrites
the previously assigned values. -/
def scanMedium (recId : Option String) (rel : MBRelease)
    (acc : Option TrackDiscInfo) (med : MBMedium) : Option TrackDiscInfo :=
  (med.tracks.getD []).foldl
    (fun acc tr =>
      if tr.id == recId then some (mkTrackDiscInfo rel med tr) else acc) acc

/-- The `for medium in release["mediums"]` loop. -/
def scanRelease (recId : Option String) (acc : Option TrackDiscInfo)
    (rel : MBRelease) : Option TrackDiscInfo :=
  (rel.mediums.getD []).foldl (scanMedium recId rel) acc

/-- The track/disc-number extraction of `_recognize_song` (lines 326-346):
scan every release, medium and track, assigning the four keys on every track
whose `id` equals the recording's `id`; `none` when no track matches. -/
def extract_track_disc (recId : Option String) (releases : List MBRelease) :
    Option TrackDiscInfo :=
  releases.foldl (scanRelease recId) none

/-- The metadata entries contributed by the track/disc scan, as key/value
pairs of the metadata dictionary. -/
def trackDiscPairs : Option TrackDiscInfo → List (String × PyVal)
  | none => []
  | some i =>
    [("tracknumber", i.tracknumber), ("discnumber", i.discnumber),
     ("totaltracks", i.totaltracks), ("totaldiscs", i.totaldiscs)]

/-! ## `AudioProcessor._update_audio_metadata` (tag writing) -/

/-- The metadata dictionary passed to `_update_audio_metadata`. -/
abbrev Metadata := List (String × PyVal)

/-- `key in metadata` / `metadata[key]`. -/
def mget (m : Metadata) (k : String) : Option PyVal :=
  m.lookup k

/-- The ID3 frame ↦ metadata key mapping of the MP3 branch, in source order. -/
def mp3_frames : List (String × String) :=
  [("TIT2", "title"), ("TPE1", "artist"), ("TALB", "album"), ("TDRC", "date"),
   ("TCON", "genre"), ("TRCK", "tracknumber"), ("TPOS", "discnumber"),
   ("TPE2", "albumartist"), ("TCOM", "composer")]

/-- The text written for one MP3 frame: track and disc numbers are joined
with their totals when present, other fields are written as given. -/
def mp3_text (m : Metadata) (key : String) (v : PyVal) : String :=
  if key = "tracknumber" then
    match mget m "totaltracks" with
    | some tot => pyStr v ++ "/" ++ pyStr tot
    | none => pyStr v
  else if key = "discnumber" then
    match mget m "totaldiscs" with
    | some tot => pyStr v ++ "/" ++ pyStr tot
    | none => pyStr v
  else pyStr v

/-- The frames written by the MP3 branch of `_update_audio_metadata`: each
frame is written only when its metadata key is present. -/
def mp3_writes (m : Metadata) : List (String × String) :=
  mp3_frames.filterMap
    (fun p => (mget m p.2).map (fun v => (p.1, mp3_text m p.2 v)))

/-- The `field_mapping` of the FLAC/OGG branch (identity mapping). -/
def flac_field_mapping : List (String × String) :=
  [("title", "title"), ("artist", "artist"), ("album", "album"), ("date", "date"),
   ("genre", "genre"), ("tracknumber", "tracknumber"), ("discnumber", "discnumber"),
   ("albumartist", "albumartist"), ("totaltracks", "totaltracks"),
   ("totaldiscs", "totaldiscs"), ("composer", "composer")]

/-- The tags written by the FLAC/OGG branch: `audio[file_key] =
str(metadata[meta_key])` for every mapped key present in the metadata. -/
def update_flac_fields (m : Metadata) : List (String × String) :=
  flac_field_mapping.filterMap
    (fun p => (mget m p.1).map (fun v => (p.2, pyStr v)))

/-- A value written into an M4A atom: either a (singleton-wrapped) metadata
value or a `(number, total)` pair. -/
inductive M4AVal where
  | val (v : PyVal)
  | pair (a b : Int)
deriving DecidableEq, Repr

/-- The `field_mapping` of the M4A branch. -/
def m4a_field_mapping : List (String × String) :=
  [("title", "\xa9nam"), ("artist", "\xa9ART"), ("album", "\xa9alb"),
   ("date", "\xa9day"), ("genre", "\xa9gen"), ("albumartist", "aART"),
   ("composer", "\xa9wrt")]

/-- Python `int(value)` on a metadata value (`None` models a raised
`ValueError`/`TypeError`). -/
def pyInt : PyVal → Option Int
  | .str s => s.toInt?
  | .nat n => some n
  | .bool b => some (if b then 1 else 0)
  | .strs _ => none

/-- The `trkn`/`disk` atom written by the M4A branch for a numeric pair:
skipped entirely when a conversion raises. -/
def m4a_pair_write (m : Metadata) (numKey totalKey atom : String) :
    List (String × M4AVal) :=
  match mget m numKey with
  | none => []
  | some v =>
    match pyInt v with
    | none => []
    | some track =>
      match (match mget m totalKey with
             | none => some (0 : Int)
             | some tv => pyInt tv) with
      | none => []
      | some total =>
        [(atom, .pair track (if 0 < total then total else 0))]

/-- The atoms written by the M4A branch of `_update_audio_metadata`. -/
def m4a_writes (m : Metadata) : List (String × M4AVal) :=
  m4a_field_mapping.filterMap
    (fun p => (mget m p.1).map (fun v => (p.2, M4AVal.val v))) ++
  m4a_pair_write m "tracknumber" "totaltracks" "trkn" ++
  m4a_pair_write m "discnumber" "totaldiscs" "disk"

/-- The bookkeeping keys skipped by the generic fallback branch. -/
def generic_excluded : List String :=
  ["status", "score", "cover_url", "tags", "genres", "artists", "acoustid"]

/-- `value = value[0] if value else ""` applied to list values in the
generic fallback branch. -/
def reduceListVal : PyVal → PyVal
  | .strs l => .str (l.headD "")
  | v => v

/-- The tags written by the generic fallback branch of
`_update_audio_metadata`: every non-bookkeeping metadata item, with list
values reduced to their first element (or `""` when empty). -/
def update_generic_fields (m : Metadata) : List (String × PyVal) :=
  m.filterMap
    (fun p => if p.1 ∈ generic_excluded then none else some (p.1, reduceListVal p.2))

/-! ## `AlbumArtManager.fetch_album_cover` (cover fallback chain) -/

/-- The environment observed by one `fetch_album_cover` call: availability
of the optional clients and the responses of the three services. -/
structure CoverEnv where
  mb_available : Bool
  mb_raises : Bool
  mb_release_list : List String
  requests_available : Bool
  head_raises : Bool
  head_status : Nat
  itunes_status : Nat
  itunes_result_count : Nat
  itunes_artwork_url : Option String
  deezer_status : Nat
  deezer_total : Nat
  deezer_has_data : Bool
  deezer_cover_xl : Option String
  deezer_cover_big : Option String
  deezer_cover : Option String
deriving DecidableEq, Repr

/-- The Cover Art Archive front-cover URL derived from a release id. -/
def caa_url (release_id : String) : String :=
  "https://coverartarchive.org/release/" ++ release_id ++ "/front"

/-- The MusicBrainz stage of `fetch_album_cover`: `some url` when the stage
returns early with an accepted URL, `none` when it falls through (client
unavailable, search error, empty release list, `requests` unavailable, HEAD
verification raising, or a non-200 HEAD status). -/
def mbStage (env : CoverEnv) : Option String :=
  if env.mb_available then
    if env.mb_raises then none
    else
      match env.mb_release_list with
      | [] => none
      | rid :: _ =>
        if env.requests_available then
          if env.head_raises = false ∧ env.head_status = 200 then some (caa_url rid)
          else none
        else none
  else none

/-- The iTunes stage: on a 200 response with `resultCount > 0` it returns
the `artworkUrl100` value (defaulted to `""` when the key is absent) with
the size token upgraded; otherwise it falls through. -/
def itunesStage (env : CoverEnv) : Option String :=
  if env.requests_available then
    if env.itunes_status = 200 ∧ 0 < env.itunes_result_count then
      some (pyReplace (env.itunes_artwork_url.getD "") "100x100" "600x600")
    else none
  else none

/-- The Deezer stage: on a 200 response with `total > 0` and a non-empty
`data` list, the first of `cover_xl`, `cover_big`, `cover` by Python
truthiness; `none` in every other case. -/
def deezerStage (env : CoverEnv) : Option String :=
  if env.requests_available then
    if env.deezer_status = 200 ∧ 0 < env.deezer_total ∧ env.deezer_has_data then
      pyOrStr env.deezer_cover_xl (pyOrStr env.deezer_cover_big env.deezer_cover)
    else none
  else none

/-- `AlbumArtManager.fetch_album_cover`: MusicBrainz, then iTunes, then
Deezer, stopping at the first stage that returns. -/
def fetch_album_cover (env : CoverEnv) (_artist _album : String) : Option String :=
  match mbStage env with
  | some u => some u
  | none =>
    match itunesStage env with
    | some u => some u
    | none => deezerStage env

/-! ## Auxiliary definitions for the verification -/

/-- Value of a little-endian decimal digit list. -/
def ofDec (l : List Nat) : Nat :=
  l.foldr (fun d acc => d + 10 * acc) 0

/-! ## Concrete sample inputs for witnesses and counterexamples -/

/-- A one-file directory whose file name is not fixed by sanitization
(a leading dot, stripped on the POSIX dialect). -/
def dotDir : Dir :=
  [⟨".b.mp3", some ⟨some "A", some "T"⟩⟩]

/-- A 300-character stem plus `.mp3`, exceeding the 255-character cap. -/
def longName : String :=
  ⟨List.replicate 300 'a'⟩ ++ ".mp3"

/-- A release whose only medium contains the matching track, with all
position data present (used as the first release in the scan). -/
def relFirst : MBRelease :=
  ⟨some (.nat 1), some [⟨some (.nat 1), some (.nat 10), some [⟨some "rec1", some (.nat 3)⟩]⟩]⟩

/-- A second release also containing the matching track, with different
position data. -/
def relSecond : MBRelease :=
  ⟨some (.nat 2), some [⟨some (.nat 2), some (.nat 8), some [⟨some "rec1", some (.nat 7)⟩]⟩]⟩

/-- A release whose matching track lacks its `position` key, so the scan
defaults `tracknumber` to `""`. -/
def relMissingPos : MBRelease :=
  ⟨some (.nat 1), some [⟨some (.nat 1), some (.nat 12), some [⟨some "rec1", none⟩]⟩]⟩

/-- Metadata as assembled by `_recognize_song` from `relMissingPos`:
`tracknumber` is present but empty. -/
def metaEmptyTrack : Metadata :=
  [("title", PyVal.str "Song")] ++
    trackDiscPairs (extract_track_disc (some "rec1") [relMissingPos])

/-- Cover environment: MusicBrainz succeeds and the Cover Art Archive HEAD
check returns 200. -/
def envMbOk : CoverEnv :=
  ⟨true, false, ["rid1"], true, false, 200, 404, 0, none, 404, 0, false, none, none, none⟩

/-- Cover environment: MusicBrainz finds a release but the Cover Art
Archive HEAD check returns 404. -/
def envMbHead404 : CoverEnv :=
  ⟨true, false, ["rid1"], true, false, 404, 404, 0, none, 404, 0, false, none, none, none⟩

/-- Cover environment: MusicBrainz unavailable, iTunes succeeds with an
artwork URL, Deezer would also succeed. -/
def envItunesOk : CoverEnv :=
  ⟨false, false, [], true, false, 404, 200, 1, some "https://is1.example/img/100x100bb.jpg",
   200, 1, true, some "https://dz.example/xl.jpg", none, none⟩

/-- Cover environment: MusicBrainz unavailable, iTunes responds with a
result that lacks `artworkUrl100`, Deezer has a usable cover URL. -/
def envItunesNoArt : CoverEnv :=
  ⟨false, false, [], true, false, 404, 200, 1, none,
   200, 1, true, some "https://dz.example/xl.jpg", none, none⟩

/-- Cover environment: MusicBrainz unavailable and iTunes returns zero
results, so resolution reaches Deezer. -/
def envDeezerOnly : CoverEnv :=
  ⟨false, false, [], true, false, 404, 200, 0, none,
   200, 1, true, some "https://dz.example/xl.jpg", none, none⟩

/-! ## General lemmas -/

theorem string_data_append (s t : String) : (s ++ t).data = s.data ++ t.data := rfl

theorem lookup_map_pair {α : Type} (g : String → α) :
    ∀ (files : List String) (f : String), f ∈ files →
      (files.map (fun x => (x, g x))).lookup f = some (g f) := by
  intro files
  induction files with
  | nil => intro f h; cases h
  | cons x xs ih =>
    intro f h
    rcases List.mem_cons.mp h with h1 | h2
    · subst h1; simp [List.lookup]
    · by_cases he : f = x
      · subst he; simp [List.lookup]
      · have hb : (f == x) = false := beq_eq_false_iff_ne.mpr he
        simp only [List.map_cons, List.lookup, hb]
        exact ih f h2

theorem foldl_override {α β : Type} (f : Option β → α → Option β)
    (hf : ∀ (init : Option β) (x : α), f init x = (f none x).elim init some) :
    ∀ (l : List α) (init : Option β),
      l.foldl f init = (l.foldl f none).elim init some := by
  intro l
  induction l with
  | nil => intro init; rfl
  | cons x xs ih =>
    intro init
    simp only [List.foldl_cons]
    rw [ih (f init x), ih (f none x)]
    cases hxs : xs.foldl f none with
    | none => simp [Option.elim, hf init x]
    | some v => simp [Option.elim]

/-! ## Lemmas about the release-graph scan -/

theorem scanMedium_override (recId : Option String) (rel : MBRelease)
    (init : Option TrackDiscInfo) (med : MBMedium) :
    scanMedium recId rel init med = (scanMedium recId rel none med).elim init some := by
  unfold scanMedium
  apply foldl_override
  intro acc tr
  by_cases h : tr.id == recId <;> simp [h, Option.elim]

theorem scanRelease_override (recId : Option String) (init : Option TrackDiscInfo)
    (rel : MBRelease) :
    scanRelease recId init rel = (scanRelease recId none rel).elim init some := by
  unfold scanRelease
  exact foldl_override _ (fun init med => scanMedium_override recId rel init med) _ init

/-! ## C3 -/

/-- C3 (amended): in the track/disc scan of `_recognize_song` each match
overwrites the previously assigned values, so the values extracted from a
release list are those of the LAST matching medium encountered in
release-medium-track scan order, not the first: the result of scanning
`l1 ++ l2` is the result of scanning `l2` whenever `l2` contains a match,
and the result of scanning `l1` otherwise. -/
theorem c3_last_match_wins (recId : Option String) (l1 l2 : List MBRelease) :
    extract_track_disc recId (l1 ++ l2) =
      (extract_track_disc recId l2).elim (extract_track_disc recId l1) some := by
  unfold extract_track_disc
  rw [List.foldl_append]
  exact foldl_override _ (fun init rel => scanRelease_override recId init rel) l2 _

/-- C3: the claim as stated is false: with two releases both containing a
track matching the recording id, the extracted track/disc values are those
of the second (last) release, not the first. -/
theorem c3_counterexample :
    extract_track_disc (some "rec1") [relFirst, relSecond] =
      some ⟨.nat 7, .nat 2, .nat 8, .nat 2⟩ ∧
    (some (⟨.nat 7, .nat 2, .nat 8, .nat 2⟩ : TrackDiscInfo) ≠
      some (⟨.nat 3, .nat 1, .nat 10, .nat 1⟩ : TrackDiscInfo)) ∧
    extract_track_disc (some "rec1") [relFirst] =
      some ⟨.nat 3, .nat 1, .nat 10, .nat 1⟩ := by
  refine ⟨by decide, by decide, by decide⟩

/-! ## C1 -/

/-- C1 (amended): when `process_lyrics` is set, the batch returns one
outcome per input file, keyed by file, each equal to the captured result of
that file's own task (an uncaught task failure becomes that file's
`error` outcome), independent of every sibling task; when `process_lyrics`
is not set, `process_files` performs no per-file work and returns the empty
result map. -/
theorem c1_per_file_outcomes {V : Type} (task : String → Bool → Except String V)
    (use_recognition : Bool) (files : List String) (f : String) (h : f ∈ files) :
    (process_files task use_recognition true files).lookup f =
      some (task f use_recognition) ∧
    (process_files task use_recognition true files).length = files.length := by
  have hne : files.isEmpty = false := by
    cases files
    · cases h
    · rfl
  constructor
  · simp only [process_files, hne, Bool.false_eq_true, if_false, if_true,
      process_files_with_lyrics]
    exact lookup_map_pair (fun x => task x use_recognition) files f h
  · simp [process_files, hne, process_files_with_lyrics]

theorem c1_witness :
    ("a.mp3" ∈ (["a.mp3"] : List String)) ∧
    (process_files (fun _ _ => (Except.error "boom" : Except String Nat)) true true
        ["a.mp3"]).lookup "a.mp3" = some (Except.error "boom") ∧
    (process_files (fun _ _ => (Except.error "boom" : Except String Nat)) true true
        ["a.mp3"]).length = 1 :=
  ⟨by decide,
   c1_per_file_outcomes (fun _ _ => (Except.error "boom" : Except String Nat)) true
     ["a.mp3"] "a.mp3" (by decide)⟩

/-- C1: the claim as stated is false: with `process_lyrics` unset and a
non-empty file set, `process_files` returns no outcome for any input file. -/
theorem c1_counterexample :
    (process_files (fun _ _ => (Except.ok 0 : Except String Nat)) true false
        ["a.mp3"]).lookup "a.mp3" = none := by
  rfl

/-! ## C2 -/

/-- C2 (amended): recognition is attempted only if `use_recognition` is set
AND at least one of the current artist/title is its placeholder value (the
source gate is a disjunction, not a conjunction); in particular, whenever
the gate `needs_recognition` is false — e.g. for a file whose current
artist and title are both real — the recognizer is never invoked: the
per-file outcome is independent of the recognizer oracle. -/
theorem c2_no_recognizer_when_not_needed (audio : Option FsTags)
    (use_recognition : Bool) (rec1 rec2 : Recognition) (upd : Recognition → Bool)
    (lyr : String → String → LyricsResult) (emb : String → Bool)
    (h : needs_recognition use_recognition (currentArtist audio) (currentTitle audio)
          = false) :
    process_file_with_lyrics audio use_recognition rec1 upd lyr emb =
      process_file_with_lyrics audio use_recognition rec2 upd lyr emb := by
  simp only [process_file_with_lyrics, h, Bool.false_eq_true, if_false]

theorem c2_witness :
    (needs_recognition true (currentArtist (some ⟨some "Real A", some "Real T"⟩))
        (currentTitle (some ⟨some "Real A", some "Real T"⟩)) = false) ∧
    process_file_with_lyrics (some ⟨some "Real A", some "Real T"⟩) true
        ⟨true, some "X", some "Y", some "Z", some 9, none⟩ (fun _ => true)
        (fun _ _ => ⟨false, "", none⟩) (fun _ => false) =
      process_file_with_lyrics (some ⟨some "Real A", some "Real T"⟩) true
        ⟨false, none, none, none, none, some "no match"⟩ (fun _ => true)
        (fun _ _ => ⟨false, "", none⟩) (fun _ => false) :=
  ⟨by decide,
   c2_no_recognizer_when_not_needed (some ⟨some "Real A", some "Real T"⟩) true
     ⟨true, some "X", some "Y", some "Z", some 9, none⟩
     ⟨false, none, none, none, none, some "no match"⟩ (fun _ => true)
     (fun _ _ => ⟨false, "", none⟩) (fun _ => false) (by decide)⟩

/-- C2: the claim as stated is false: for a file whose current artist is
the placeholder but whose current title is real (so NOT both placeholders),
the recognizer is still invoked — the outcome depends on the recognizer
oracle. -/
theorem c2_counterexample :
    process_file_with_lyrics (some ⟨some "Unknown Artist", some "Cool Song"⟩) true
        ⟨false, none, none, none, none, some "m1"⟩ (fun _ => false)
        (fun _ _ => ⟨false, "", none⟩) (fun _ => false) ≠
      process_file_with_lyrics (some ⟨some "Unknown Artist", some "Cool Song"⟩) true
        ⟨false, none, none, none, none, some "m2"⟩ (fun _ => false)
        (fun _ _ => ⟨false, "", none⟩) (fun _ => false) := by
  decide

/-! ## C6 -/

/-- C6 (amended): cover resolution queries MusicBrainz, then iTunes, then
Deezer, in that fixed order: (a) an accepted MusicBrainz URL is returned
directly; (b) a non-success (or raising) Cover-Art-Archive verification
makes the MusicBrainz stage fall through rather than fail; (c) once the
MusicBrainz stage falls through, a 200 iTunes response with
`resultCount > 0` ends the chain with the (possibly empty, when
`artworkUrl100` is absent) upgraded artwork URL, independent of what Deezer
would return; (d) Deezer is consulted only when both earlier stages fall
through. -/
theorem c6_fallback_chain :
    (∀ (env : CoverEnv) (a b u : String), mbStage env = some u →
        fetch_album_cover env a b = some u) ∧
    (∀ env : CoverEnv, env.head_status ≠ 200 ∨ env.head_raises = true →
        mbStage env = none) ∧
    (∀ (env : CoverEnv) (a b : String), mbStage env = none →
        env.requests_available = true → env.itunes_status = 200 →
        0 < env.itunes_result_count →
        fetch_album_cover env a b =
          some (pyReplace (env.itunes_artwork_url.getD "") "100x100" "600x600")) ∧
    (∀ (env : CoverEnv) (a b : String), mbStage env = none → itunesStage env = none →
        fetch_album_cover env a b = deezerStage env) := by
  refine ⟨?_, ?_, ?_, ?_⟩
  · intro env a b u h
    simp [fetch_album_cover, h]
  · intro env h
    unfold mbStage
    rcases h with h | h
    · split
      · split
        · rfl
        · split
          · rfl
          · split
            · rw [if_neg]; rintro ⟨-, h200⟩; exact h h200
            · rfl
      · rfl
    · split
      · split
        · rfl
        · split
          · rfl
          · split
            · rw [if_neg]; rintro ⟨hr, -⟩; rw [h] at hr; cases hr
            · rfl
      · rfl
  · intro env a b hmb hreq h200 hcount
    simp [fetch_album_cover, hmb, itunesStage, hreq, h200, hcount]
  · intro env a b hmb hit
    simp [fetch_album_cover, hmb, hit]

theorem c6_witness :
    (mbStage envMbOk = some (caa_url "rid1") ∧
      fetch_album_cover envMbOk "A" "B" = some (caa_url "rid1")) ∧
    (envMbHead404.head_status ≠ 200 ∧ mbStage envMbHead404 = none) ∧
    (mbStage envItunesOk = none ∧
      fetch_album_cover envItunesOk "A" "B" =
        some (pyReplace ((envItunesOk.itunes_artwork_url).getD "") "100x100" "600x600")) ∧
    (mbStage envDeezerOnly = none ∧ itunesStage envDeezerOnly = none ∧
      fetch_album_cover envDeezerOnly "A" "B" = deezerStage envDeezerOnly) :=
  ⟨⟨by decide, c6_fallback_chain.1 envMbOk "A" "B" (caa_url "rid1") (by decide)⟩,
   ⟨by decide, c6_fallback_chain.2.1 envMbHead404 (Or.inl (by decide))⟩,
   ⟨by decide, c6_fallback_chain.2.2.1 envItunesOk "A" "B" (by decide) (by decide)
      (by decide) (by decide)⟩,
   ⟨by decide, by decide,
    c6_fallback_chain.2.2.2 envDeezerOnly "A" "B" (by decide) (by decide)⟩⟩

/-- C6: the universal "the chain stops at the first stage producing a
usable URL" is false as stated: when MusicBrainz falls through and iTunes
returns a 200 result lacking `artworkUrl100`, the chain stops at iTunes
with the unusable empty string even though Deezer (the only stage with a
usable URL) would have produced one. -/
theorem c6_counterexample :
    fetch_album_cover envItunesNoArt "A" "B" = some "" ∧
    deezerStage envItunesNoArt = some "https://dz.example/xl.jpg" := by
  refine ⟨by decide, by decide⟩

/-! ## Decimal rendering lemmas -/

theorem decDigitsF_lt10 : ∀ (fuel n d : Nat), d ∈ decDigitsF fuel n → d < 10 := by
  intro fuel
  induction fuel with
  | zero => intro n d h; cases h
  | succ k ih =>
    intro n d h
    unfold decDigitsF at h
    by_cases hn : n = 0
    · simp [hn] at h
    · rw [if_neg hn] at h
      rcases List.mem_cons.mp h with h1 | h2
      · subst h1; exact Nat.mod_lt _ (by decide)
      · exact ih _ _ h2

theorem ofDec_decDigitsF : ∀ (fuel n : Nat), n ≤ fuel → ofDec (decDigitsF fuel n) = n := by
  intro fuel
  induction fuel with
  | zero =>
    intro n h
    have : n = 0 := Nat.le_zero.mp h
    subst this
    rfl
  | succ k ih =>
    intro n h
    by_cases hn : n = 0
    · subst hn; rfl
    · unfold decDigitsF
      rw [if_neg hn]
      have hdiv : n / 10 ≤ k := by
        have h1 : n / 10 < n := Nat.div_lt_self (Nat.pos_of_ne_zero hn) (by decide)
        omega
      show n % 10 + 10 * ofDec (decDigitsF k (n / 10)) = n
      rw [ih _ hdiv, Nat.mod_add_div]

theorem map_decDigitChar_inj :
    ∀ (l1 l2 : List Nat), (∀ d ∈ l1, d < 10) → (∀ d ∈ l2, d < 10) →
      l1.map decDigitChar = l2.map decDigitChar → l1 = l2 := by
  have hc : ∀ a, a < 10 → ∀ b, b < 10 → decDigitChar a = decDigitChar b → a = b := by
    decide
  intro l1
  induction l1 with
  | nil =>
    intro l2 _ _ h
    cases l2 with
    | nil => rfl
    | cons b bs => cases h
  | cons a as ih =>
    intro l2 h1 h2 h
    cases l2 with
    | nil => cases h
    | cons b bs =>
      simp only [List.map_cons, List.cons.injEq] at h
      have hab : a = b :=
        hc a (h1 a (List.mem_cons_self a as)) b (h2 b (List.mem_cons_self b bs)) h.1
      have htl : as = bs :=
        ih bs (fun d hd => h1 d (List.mem_cons_of_mem a hd))
          (fun d hd => h2 d (List.mem_cons_of_mem b hd)) h.2
      rw [hab, htl]

theorem natToDecimal_inj : Function.Injective natToDecimal := by
  intro n m h
  unfold natToDecimal at h
  have hzero : ∀ j : Nat, j ≠ 0 →
      (⟨((decDigitsF j j).map decDigitChar).reverse⟩ : String) = "0" → False := by
    intro j hj hcontra
    have hdata := congrArg String.data hcontra
    have hrev := congrArg List.reverse hdata
    simp only [List.reverse_reverse] at hrev
    -- hrev : (decDigitsF j j).map decDigitChar = ['0'].reverse
    have h0 : (decDigitsF j j).map decDigitChar = List.map decDigitChar [0] := by
      rw [hrev]; rfl
    have hdig : decDigitsF j j = [0] :=
      map_decDigitChar_inj _ _ (fun d hd => decDigitsF_lt10 j j d hd)
        (by intro d hd; simp at hd; omega) h0
    have := ofDec_decDigitsF j j (Nat.le_refl j)
    rw [hdig] at this
    exact hj this.symm
  by_cases hn : n = 0 <;> by_cases hm : m = 0
  · omega
  · rw [if_pos hn, if_neg hm] at h
    exact absurd (hzero m hm h.symm) (fun hf => hf)
  · rw [if_neg hn, if_pos hm] at h
    exact absurd (hzero n hn h) (fun hf => hf)
  · rw [if_neg hn, if_neg hm] at h
    have hdata := congrArg String.data h
    have hrev := congrArg List.reverse hdata
    simp only [List.reverse_reverse] at hrev
    have hdig : decDigitsF n n = decDigitsF m m :=
      map_decDigitChar_inj _ _ (fun d hd => decDigitsF_lt10 n n d hd)
        (fun d hd => decDigitsF_lt10 m m d hd) hrev
    have h1 := ofDec_decDigitsF n n (Nat.le_refl n)
    have h2 := ofDec_decDigitsF m m (Nat.le_refl m)
    rw [hdig] at h1
    omega

theorem collisionName_inj (base ext : String) :
    Function.Injective (collisionName base ext) := by
  intro n m h
  apply natToDecimal_inj
  have hd := congrArg String.data h
  simp only [collisionName, string_data_append, List.append_assoc] at hd
  have h1 := List.append_cancel_left hd
  have h2 := List.append_cancel_left h1
  have h3 := List.append_cancel_right h2
  have : (⟨(natToDecimal n).data⟩ : String) = ⟨(natToDecimal m).data⟩ := by rw [h3]
  exact this

/-! ## Collision loop lemmas -/

theorem collisionLoop_succ (names : List String) (base ext : String) (f n : Nat) :
    collisionLoop names base ext (f + 1) n =
      if collisionName base ext n ∈ names then collisionLoop names base ext f (n + 1)
      else collisionName base ext n := rfl

theorem exists_free_candidate (names : List String) (base ext : String) :
    ∃ k, k < names.length + 1 ∧ collisionName base ext (1 + k) ∉ names := by
  by_contra hc
  push_neg at hc
  have hnd : ((List.range (names.length + 1)).map
      (fun k => collisionName base ext (1 + k))).Nodup := by
    refine List.Nodup.map ?_ (List.nodup_range _)
    intro a b hab
    have := collisionName_inj base ext hab
    omega
  have hsub : ∀ x ∈ (List.range (names.length + 1)).map
      (fun k => collisionName base ext (1 + k)), x ∈ names := by
    intro x hx
    rcases List.mem_map.mp hx with ⟨k, hk, rfl⟩
    exact hc k (List.mem_range.mp hk)
  have h1 : ((List.range (names.length + 1)).map
      (fun k => collisionName base ext (1 + k))).toFinset.card = names.length + 1 := by
    rw [List.toFinset_card_of_nodup hnd, List.length_map, List.length_range]
  have h2 : ((List.range (names.length + 1)).map
      (fun k => collisionName base ext (1 + k))).toFinset ⊆ names.toFinset := by
    intro x hx
    exact List.mem_toFinset.mpr (hsub x (List.mem_toFinset.mp hx))
  have h3 := Finset.card_le_card h2
  have h4 : names.toFinset.card ≤ names.length := List.toFinset_card_le names
  omega

theorem collisionLoop_spec (names : List String) (base ext : String) :
    ∀ (fuel n0 : Nat), (∃ k, k < fuel ∧ collisionName base ext (n0 + k) ∉ names) →
      ∃ k, k < fuel ∧
        collisionLoop names base ext fuel n0 = collisionName base ext (n0 + k) ∧
        collisionName base ext (n0 + k) ∉ names ∧
        ∀ j, j < k → collisionName base ext (n0 + j) ∈ names := by
  intro fuel
  induction fuel with
  | zero =>
    rintro n0 ⟨k, hk, -⟩
    omega
  | succ f ih =>
    rintro n0 ⟨k, hk, hfree⟩
    by_cases hmem : collisionName base ext n0 ∈ names
    · have hk0 : k ≠ 0 := by
        rintro rfl
        rw [Nat.add_zero] at hfree
        exact hfree hmem
      have hex : ∃ k2, k2 < f ∧ collisionName base ext ((n0 + 1) + k2) ∉ names := by
        refine ⟨k - 1, by omega, ?_⟩
        have he : (n0 + 1) + (k - 1) = n0 + k := by omega
        rw [he]
        exact hfree
      obtain ⟨k2, hk2, heq, hfree2, hall⟩ := ih (n0 + 1) hex
      refine ⟨k2 + 1, by omega, ?_, ?_, ?_⟩
      · rw [collisionLoop_succ, if_pos hmem, heq]
        congr 1
        omega
      · have he : n0 + (k2 + 1) = (n0 + 1) + k2 := by omega
        rw [he]
        exact hfree2
      · intro j hj
        cases j with
        | zero => rw [Nat.add_zero]; exact hmem
        | succ j2 =>
          have := hall j2 (by omega)
          have he : n0 + (j2 + 1) = (n0 + 1) + j2 := by omega
          rw [he]
          exact this
    · refine ⟨0, by omega, ?_, ?_, ?_⟩
      · rw [collisionLoop_succ, if_neg hmem, Nat.add_zero]
      · rw [Nat.add_zero]; exact hmem
      · omega

theorem resolveCollision_spec (names : List String) (name : String)
    (h : name ∈ names) :
    ∃ N, 1 ≤ N ∧
      resolveCollision names name =
        collisionName (pySplitext name).1 (pySplitext name).2 N ∧
      collisionName (pySplitext name).1 (pySplitext name).2 N ∉ names ∧
      ∀ k, 1 ≤ k → k < N →
        collisionName (pySplitext name).1 (pySplitext name).2 k ∈ names := by
  unfold resolveCollision
  rw [if_pos h]
  obtain ⟨k0, hk0, hfree⟩ :=
    exists_free_candidate names (pySplitext name).1 (pySplitext name).2
  obtain ⟨k, hk, heq, hfreek, hall⟩ :=
    collisionLoop_spec names (pySplitext name).1 (pySplitext name).2
      (names.length + 1) 1 ⟨k0, hk0, hfree⟩
  refine ⟨1 + k, by omega, heq, hfreek, ?_⟩
  intro j hj1 hj2
  have := hall (j - 1) (by omega)
  have he : 1 + (j - 1) = j := by omega
  rw [he] at this
  exact this

theorem resolveCollision_not_mem (names : List String) (name : String) :
    resolveCollision names name ∉ names := by
  by_cases h : name ∈ names
  · obtain ⟨N, -, heq, hfree, -⟩ := resolveCollision_spec names name h
    rw [heq]
    exact hfree
  · unfold resolveCollision
    rw [if_neg h]
    exact h

/-! ## C9 -/

/-- C9: when the sanitized target name already exists in the (finite)
directory listing, collision resolution returns `f"{base} ({N}){ext}"` for
the least `N ≥ 1` whose name is free: the loop terminates with a free name
and every smaller suffix was occupied. -/
theorem c9_collision_resolution (names : List String) (name : String)
    (h : name ∈ names) :
    ∃ N, 1 ≤ N ∧
      resolveCollision names name =
        collisionName (pySplitext name).1 (pySplitext name).2 N ∧
      collisionName (pySplitext name).1 (pySplitext name).2 N ∉ names ∧
      ∀ k, 1 ≤ k → k < N →
        collisionName (pySplitext name).1 (pySplitext name).2 k ∈ names :=
  resolveCollision_spec names name h

theorem c9_witness :
    ("x.mp3" ∈ ["x.mp3", "x (1).mp3"]) ∧
    (∃ N, 1 ≤ N ∧
      resolveCollision ["x.mp3", "x (1).mp3"] "x.mp3" =
        collisionName (pySplitext "x.mp3").1 (pySplitext "x.mp3").2 N ∧
      collisionName (pySplitext "x.mp3").1 (pySplitext "x.mp3").2 N ∉
        ["x.mp3", "x (1).mp3"] ∧
      ∀ k, 1 ≤ k → k < N →
        collisionName (pySplitext "x.mp3").1 (pySplitext "x.mp3").2 k ∈
          ["x.mp3", "x (1).mp3"]) :=
  ⟨by decide, c9_collision_resolution ["x.mp3", "x (1).mp3"] "x.mp3" (by decide)⟩

/-! ## C10 -/

/-- C10: the no-op check of `_safe_rename` compares the raw candidate to
the current name; when the raw candidate differs but its sanitized form
equals the current name, the sanitized target exists (it is the file
itself), so the file is renamed with the `" (1)"` collision suffix (when
that suffix is free) and the rename is reported as a change. -/
theorem c10_raw_noop_check (os_type : String) (dir : Dir) (old_name new_name : String)
    (hne : old_name ≠ new_name)
    (hsan : sanitize_filename os_type new_name = old_name)
    (hmem : old_name ∈ namesOf dir)
    (hfree : collisionName (pySplitext old_name).1 (pySplitext old_name).2 1 ∉
      namesOf dir) :
    safe_rename os_type dir old_name new_name =
      (collisionName (pySplitext old_name).1 (pySplitext old_name).2 1, true,
       renameFile dir old_name
         (collisionName (pySplitext old_name).1 (pySplitext old_name).2 1)) := by
  have hrc : resolveCollision (namesOf dir) (sanitize_filename os_type new_name) =
      collisionName (pySplitext old_name).1 (pySplitext old_name).2 1 := by
    rw [hsan]
    unfold resolveCollision
    rw [if_pos hmem]
    cases hlen : (namesOf dir).length with
    | zero =>
      exfalso
      have : namesOf dir = [] := List.length_eq_zero.mp hlen
      rw [this] at hmem
      cases hmem
    | succ L =>
      rw [collisionLoop_succ, if_neg hfree]
  simp only [safe_rename, hrc, if_neg hne]
  rw [if_pos hmem]

theorem c10_witness :
    ("A - T.mp3" ≠ "A - T?.mp3") ∧
    (sanitize_filename "Windows" "A - T?.mp3" = "A - T.mp3") ∧
    ("A - T.mp3" ∈ namesOf [⟨"A - T.mp3", some ⟨some "A", some "T?"⟩⟩]) ∧
    safe_rename "Windows" [⟨"A - T.mp3", some ⟨some "A", some "T?"⟩⟩]
        "A - T.mp3" "A - T?.mp3" =
      (collisionName (pySplitext "A - T.mp3").1 (pySplitext "A - T.mp3").2 1, true,
       renameFile [⟨"A - T.mp3", some ⟨some "A", some "T?"⟩⟩] "A - T.mp3"
         (collisionName (pySplitext "A - T.mp3").1 (pySplitext "A - T.mp3").2 1)) :=
  ⟨by decide, by decide, by decide,
   c10_raw_noop_check "Windows" [⟨"A - T.mp3", some ⟨some "A", some "T?"⟩⟩]
     "A - T.mp3" "A - T?.mp3" (by decide) (by decide) (by decide) (by decide)⟩

/-! ## Directory lemmas -/

theorem findFile_eq_of_nodup (dir : Dir) (f : FsFile)
    (hnd : (namesOf dir).Nodup) (hf : f ∈ dir) :
    findFile dir f.name = some f := by
  induction dir with
  | nil => cases hf
  | cons g gs ih =>
    have hnd2 : g.name ∉ namesOf gs ∧ (namesOf gs).Nodup := by
      simpa [namesOf] using hnd
    rcases List.mem_cons.mp hf with rfl | hmem
    · simp [findFile, List.find?]
    · have hne : (g.name == f.name) = false := by
        refine beq_eq_false_iff_ne.mpr ?_
        intro he
        exact hnd2.1 (he ▸ List.mem_map_of_mem FsFile.name hmem)
      simp only [findFile, List.find?, hne]
      exact ih hnd2.2 hmem

theorem mem_renameFile_of_ne (dir : Dir) (old new : String) (f : FsFile)
    (hf : f ∈ dir) (hne : f.name ≠ old) : f ∈ renameFile dir old new := by
  unfold renameFile
  have := List.mem_map_of_mem
    (fun g => if g.name = old then { g with name := new } else g) hf
  simpa [hne] using this

theorem renamed_mem_renameFile (dir : Dir) (old new : String) (f : FsFile)
    (hf : f ∈ dir) (h : f.name = old) :
    { f with name := new } ∈ renameFile dir old new := by
  unfold renameFile
  have := List.mem_map_of_mem
    (fun g => if g.name = old then { g with name := new } else g) hf
  simpa [h] using this

theorem namesOf_renameFile (dir : Dir) (old new : String) :
    namesOf (renameFile dir old new) =
      (namesOf dir).map (fun x => if x = old then new else x) := by
  induction dir with
  | nil => rfl
  | cons g gs ih =>
    simp only [namesOf, renameFile] at ih
    by_cases h : g.name = old
    · simp [namesOf, renameFile, h, ih]
    · simp [namesOf, renameFile, h, ih]

theorem renameFile_nodup (dir : Dir) (old new : String)
    (hnd : (namesOf dir).Nodup) (hnew : new ∉ namesOf dir) :
    (namesOf (renameFile dir old new)).Nodup := by
  rw [namesOf_renameFile]
  refine List.Nodup.map_on ?_ hnd
  intro x hx y hy hxy
  by_cases hxo : x = old <;> by_cases hyo : y = old
  · rw [hxo, hyo]
  · rw [if_pos hxo, if_neg hyo] at hxy
    exact absurd (hxy ▸ hy) hnew
  · rw [if_neg hxo, if_pos hyo] at hxy
    exact absurd (hxy ▸ hx) hnew
  · rwa [if_neg hxo, if_neg hyo] at hxy

theorem mem_namesOf_renameFile_of_ne (dir : Dir) (old new x : String)
    (hx : x ∈ namesOf dir) (hne : x ≠ old) :
    x ∈ namesOf (renameFile dir old new) := by
  rw [namesOf_renameFile]
  exact List.mem_map.mpr ⟨x, hx, by simp [hne]⟩

theorem not_mem_namesOf_renameFile (dir : Dir) (old new y : String)
    (hy : y ∉ namesOf dir) (hne : y ≠ new) :
    y ∉ namesOf (renameFile dir old new) := by
  rw [namesOf_renameFile]
  intro hc
  rcases List.mem_map.mp hc with ⟨x, hx, hxe⟩
  by_cases h : x = old
  · rw [if_pos h] at hxe
    exact hne hxe.symm
  · rw [if_neg h] at hxe
    exact hy (hxe ▸ hx)

theorem safe_rename_cases (os_type : String) (dir : Dir) (o n : String) :
    safe_rename os_type dir o n = (o, false, dir) ∨
    safe_rename os_type dir o n =
      (resolveCollision (namesOf dir) (sanitize_filename os_type n), true,
       renameFile dir o (resolveCollision (namesOf dir) (sanitize_filename os_type n))) := by
  unfold safe_rename
  by_cases h1 : o = n
  · left; rw [if_pos h1]
  · by_cases h2 : o ∈ namesOf dir
    · right; rw [if_neg h1, if_pos h2]
    · left; rw [if_neg h1, if_neg h2]

/-! ## C7 -/

theorem c7_step_preserve (os_type : String) (x : String) (f : FsFile)
    (hbad : bad_tags f = true) (st : Dir × List (String × String))
    (h1 : f ∈ st.1) (h2 : (namesOf st.1).Nodup)
    (h3 : ∀ p ∈ st.2, p.2 ≠ f.name) :
    f ∈ (rename_step os_type st x).1 ∧
    (namesOf (rename_step os_type st x).1).Nodup ∧
    ∀ p ∈ (rename_step os_type st x).2, p.2 ≠ f.name := by
  cases hff : findFile st.1 x with
  | none =>
    simp only [rename_step, hff]
    exact ⟨h1, h2, h3⟩
  | some g =>
    have hgx : g.name = x := by
      have := List.find?_some hff
      exact eq_of_beq this
    cases hgt : g.tags with
    | none =>
      simp only [rename_step, hff, hgt]
      exact ⟨h1, h2, h3⟩
    | some t =>
      by_cases hbadg : bad_check (t.artist.getD "") (t.title.getD "") = true
      · simp only [rename_step, hff, hgt, hbadg, if_true]
        exact ⟨h1, h2, h3⟩
      · have hxf : x ≠ f.name := by
          intro he
          have hfind : findFile st.1 f.name = some f := findFile_eq_of_nodup st.1 f h2 h1
          rw [he, hfind] at hff
          have hgf : f = g := by injection hff
          rw [← hgf] at hgt
          unfold bad_tags at hbad
          rw [hgt] at hbad
          exact hbadg hbad
        have hb2 : bad_check (t.artist.getD "") (t.title.getD "") = false := by
          revert hbadg
          cases bad_check (t.artist.getD "") (t.title.getD "") <;> simp
        rcases safe_rename_cases os_type st.1 x
            (t.artist.getD "" ++ " - " ++ t.title.getD "" ++ (pySplitext x).2) with hsr | hsr
        · simp only [rename_step, hff, hgt, hb2, hsr, Bool.false_eq_true, if_false]
          exact ⟨h1, h2, h3⟩
        · simp only [rename_step, hff, hgt, hb2, hsr, Bool.false_eq_true, if_false, if_true]
          refine ⟨?_, ?_, ?_⟩
          · exact mem_renameFile_of_ne st.1 x _ f h1 (fun he => hxf he.symm)
          · exact renameFile_nodup st.1 x _ h2 (resolveCollision_not_mem _ _)
          · intro p hp
            rcases List.mem_append.mp hp with hp1 | hp2
            · exact h3 p hp1
            · have hpe : p = (resolveCollision (namesOf st.1)
                  (sanitize_filename os_type
                    (t.artist.getD "" ++ " - " ++ t.title.getD "" ++ (pySplitext x).2)), x) := by
                simpa using hp2
              rw [hpe]
              exact fun he => hxf he

theorem c7_fold (os_type : String) (f : FsFile) (hbad : bad_tags f = true) :
    ∀ (fs : List String) (st : Dir × List (String × String)),
      f ∈ st.1 → (namesOf st.1).Nodup → (∀ p ∈ st.2, p.2 ≠ f.name) →
      f ∈ (fs.foldl (rename_step os_type) st).1 ∧
      (namesOf (fs.foldl (rename_step os_type) st).1).Nodup ∧
      ∀ p ∈ (fs.foldl (rename_step os_type) st).2, p.2 ≠ f.name := by
  intro fs
  induction fs with
  | nil => intro st h1 h2 h3; exact ⟨h1, h2, h3⟩
  | cons x xs ih =>
    intro st h1 h2 h3
    have hstep := c7_step_preserve os_type x f hbad st h1 h2 h3
    simpa only [List.foldl_cons] using
      ih (rename_step os_type st x) hstep.1 hstep.2.1 hstep.2.2

/-- C7: a file with unreadable tags, or a missing/empty or placeholder
artist or title, is never renamed by the rename pass (it survives under its
original name, tags intact) and never appears as an entry of the returned
change set. -/
theorem c7_skip_policy (os_type : String) (dir : Dir) (f : FsFile)
    (hnd : (namesOf dir).Nodup) (hf : f ∈ dir) (hbad : bad_tags f = true) :
    f ∈ (rename_files os_type dir).1 ∧
    ∀ p ∈ (rename_files os_type dir).2, p.2 ≠ f.name := by
  have h := c7_fold os_type f hbad (get_audio_files dir) (dir, []) hf hnd
    (by intro p hp; cases hp)
  exact ⟨h.1, h.2.2⟩

theorem c7_witness :
    ((namesOf [⟨"x.mp3", some ⟨some "Unknown Artist", some "Song"⟩⟩,
               ⟨"y.mp3", some ⟨some "Artist", some "Song"⟩⟩]).Nodup) ∧
    ((⟨"x.mp3", some ⟨some "Unknown Artist", some "Song"⟩⟩ : FsFile) ∈
      [⟨"x.mp3", some ⟨some "Unknown Artist", some "Song"⟩⟩,
       ⟨"y.mp3", some ⟨some "Artist", some "Song"⟩⟩]) ∧
    (bad_tags ⟨"x.mp3", some ⟨some "Unknown Artist", some "Song"⟩⟩ = true) ∧
    ((⟨"x.mp3", some ⟨some "Unknown Artist", some "Song"⟩⟩ : FsFile) ∈
      (rename_files "Linux"
        [⟨"x.mp3", some ⟨some "Unknown Artist", some "Song"⟩⟩,
         ⟨"y.mp3", some ⟨some "Artist", some "Song"⟩⟩]).1 ∧
     ∀ p ∈ (rename_files "Linux"
        [⟨"x.mp3", some ⟨some "Unknown Artist", some "Song"⟩⟩,
         ⟨"y.mp3", some ⟨some "Artist", some "Song"⟩⟩]).2,
       p.2 ≠ "x.mp3") :=
  ⟨by decide, by decide, by decide,
   c7_skip_policy "Linux"
     [⟨"x.mp3", some ⟨some "Unknown Artist", some "Song"⟩⟩,
      ⟨"y.mp3", some ⟨some "Artist", some "Song"⟩⟩]
     ⟨"x.mp3", some ⟨some "Unknown Artist", some "Song"⟩⟩
     (by decide) (by decide) (by decide)⟩

/-! ## C4 -/

theorem mem_get_audio_files (dir : Dir) (x : String)
    (h1 : x ∈ namesOf dir) (h2 : isAudioFile x = true) :
    x ∈ get_audio_files dir := by
  unfold get_audio_files
  exact List.mem_filter.mpr ⟨h1, h2⟩

theorem undoLoop_eq_restoreAll (os_type : String) :
    ∀ (changes : List (String × String)) (dir : Dir) (files : List String),
      (namesOf dir).Nodup →
      (changes.map Prod.fst).Nodup →
      (changes.map Prod.snd).Nodup →
      (∀ p ∈ changes, p.1 ∈ files ∧ p.1 ∈ namesOf dir ∧ p.2 ∉ namesOf dir ∧
        sanitize_filename os_type p.2 = p.2 ∧ p.2 ∉ changes.map Prod.fst) →
      undoLoop os_type files changes dir = restoreAll changes dir := by
  intro changes
  induction changes with
  | nil => intro dir files _ _ _ _; rfl
  | cons p rest ih =>
    intro dir files hnd hk hv hall
    obtain ⟨hpf, hpn, hpo, hps, hpk⟩ := hall p (List.mem_cons_self p rest)
    have hne : p.1 ≠ p.2 := fun he => hpo (he ▸ hpn)
    have hstep : (safe_rename os_type dir p.1 p.2).2.2 = renameFile dir p.1 p.2 := by
      have hrc : resolveCollision (namesOf dir) (sanitize_filename os_type p.2) = p.2 := by
        rw [hps]
        unfold resolveCollision
        rw [if_neg hpo]
      simp only [safe_rename, hrc, if_neg hne]
      rw [if_pos hpn]
    have hunf : undoLoop os_type files (p :: rest) dir =
        undoLoop os_type files rest (renameFile dir p.1 p.2) := by
      simp only [undoLoop, List.foldl_cons, if_pos hpf, hstep]
    rw [hunf]
    have hres : restoreAll (p :: rest) dir = restoreAll rest (renameFile dir p.1 p.2) := rfl
    rw [hres]
    rw [List.map_cons] at hk hv
    have hk2 : (rest.map Prod.fst).Nodup := (List.nodup_cons.mp hk).2
    have hknot : p.1 ∉ rest.map Prod.fst := (List.nodup_cons.mp hk).1
    have hv2 : (rest.map Prod.snd).Nodup := (List.nodup_cons.mp hv).2
    have hvnot : p.2 ∉ rest.map Prod.snd := (List.nodup_cons.mp hv).1
    refine ih (renameFile dir p.1 p.2) files ?_ hk2 hv2 ?_
    · exact renameFile_nodup dir p.1 p.2 hnd hpo
    · intro q hq
      obtain ⟨hqf, hqn, hqo, hqs, hqk⟩ := hall q (List.mem_cons_of_mem p hq)
      have hq1 : q.1 ≠ p.1 := by
        intro he
        exact hknot (he ▸ List.mem_map_of_mem Prod.fst hq)
      have hq2 : q.2 ≠ p.2 := by
        intro he
        exact hvnot (he ▸ List.mem_map_of_mem Prod.snd hq)
      refine ⟨hqf, ?_, ?_, hqs, ?_⟩
      · exact mem_namesOf_renameFile_of_ne dir p.1 p.2 q.1 hqn hq1
      · exact not_mem_namesOf_renameFile dir p.1 p.2 q.2 hqo hq2
      · intro hc
        exact hqk (List.mem_cons_of_mem _ hc)

theorem mem_restoreAll_of_not_key :
    ∀ (changes : List (String × String)) (d : Dir) (x : FsFile),
      x ∈ d → x.name ∉ changes.map Prod.fst → x ∈ restoreAll changes d := by
  intro changes
  induction changes with
  | nil => intro d x hx _; exact hx
  | cons q rest ih =>
    intro d x hx hnk
    have h1 : x.name ≠ q.1 := by
      intro he
      refine hnk ?_
      rw [he, List.map_cons]
      exact List.mem_cons_self _ _
    have h2 : x ∈ renameFile d q.1 q.2 := mem_renameFile_of_ne d q.1 q.2 x hx h1
    have h3 : x.name ∉ rest.map Prod.fst := by
      intro hc
      exact hnk (List.mem_cons_of_mem _ hc)
    exact ih (renameFile d q.1 q.2) x h2 h3

theorem restoreAll_restores :
    ∀ (changes : List (String × String)) (dir : Dir) (p : String × String) (f : FsFile),
      (changes.map Prod.fst).Nodup →
      (∀ q ∈ changes, q.2 ∉ changes.map Prod.fst) →
      p ∈ changes → f ∈ dir → f.name = p.1 →
      { f with name := p.2 } ∈ restoreAll changes dir := by
  intro changes
  induction changes with
  | nil => intro dir p f _ _ hp; cases hp
  | cons q rest ih =>
    intro dir p f hk hvk hp hf hname
    rw [List.map_cons] at hk
    have hknot : q.1 ∉ rest.map Prod.fst := (List.nodup_cons.mp hk).1
    have hk2 : (rest.map Prod.fst).Nodup := (List.nodup_cons.mp hk).2
    rcases List.mem_cons.mp hp with rfl | hpr
    · have h1 : { f with name := p.2 } ∈ renameFile dir p.1 p.2 :=
        renamed_mem_renameFile dir p.1 p.2 f hf hname
      have h2 : ({ f with name := p.2 } : FsFile).name ∉ rest.map Prod.fst := by
        have := hvk p (List.mem_cons_self p rest)
        intro hc
        exact this (List.mem_cons_of_mem _ hc)
      exact mem_restoreAll_of_not_key rest (renameFile dir p.1 p.2)
        { f with name := p.2 } h1 h2
    · have hne : f.name ≠ q.1 := by
        rw [hname]
        intro he
        exact hknot (he ▸ List.mem_map_of_mem Prod.fst hpr)
      have h1 : f ∈ renameFile dir q.1 q.2 := mem_renameFile_of_ne dir q.1 q.2 f hf hne
      refine ih (renameFile dir q.1 q.2) p f hk2 ?_ hpr h1 hname
      intro r hr hc
      exact hvk r (List.mem_cons_of_mem q hr) (List.mem_cons_of_mem _ hc)

/-- C4 (amended): `undo_rename` restores every file recorded in the change
set to its exact pre-pass name PROVIDED the recorded original names are
fixed points of sanitization, absent from the post-pass directory, distinct
from each other and from all recorded new names; without those conditions
the undo is best-effort only (sanitization can alter the restored name and
an occupied original name is resolved with a collision suffix instead). -/
theorem c4_undo_restores (os_type : String) (dir : Dir)
    (changes : List (String × String))
    (hnd : (namesOf dir).Nodup)
    (hk : (changes.map Prod.fst).Nodup)
    (hv : (changes.map Prod.snd).Nodup)
    (hall : ∀ p ∈ changes, p.1 ∈ namesOf dir ∧ isAudioFile p.1 = true ∧
      p.2 ∉ namesOf dir ∧ sanitize_filename os_type p.2 = p.2 ∧
      p.2 ∉ changes.map Prod.fst) :
    undo_rename os_type changes dir = restoreAll changes dir ∧
    ∀ p ∈ changes, ∀ f ∈ dir, f.name = p.1 →
      { f with name := p.2 } ∈ undo_rename os_type changes dir := by
  have h1 : undo_rename os_type changes dir = restoreAll changes dir := by
    refine undoLoop_eq_restoreAll os_type changes dir (get_audio_files dir) hnd hk hv ?_
    intro p hp
    obtain ⟨ha, hb, hc, hd, he⟩ := hall p hp
    exact ⟨mem_get_audio_files dir p.1 ha hb, ha, hc, hd, he⟩
  refine ⟨h1, ?_⟩
  intro p hp f hf hname
  rw [h1]
  refine restoreAll_restores changes dir p f hk ?_ hp hf hname
  intro q hq
  exact (hall q hq).2.2.2.2

theorem c4_witness :
    ((namesOf [⟨"A - T.mp3", some ⟨some "A", some "T"⟩⟩]).Nodup) ∧
    (([("A - T.mp3", "b.mp3")].map Prod.fst).Nodup) ∧
    (([("A - T.mp3", "b.mp3")].map Prod.snd).Nodup) ∧
    (∀ p ∈ [("A - T.mp3", "b.mp3")],
      p.1 ∈ namesOf [⟨"A - T.mp3", some ⟨some "A", some "T"⟩⟩] ∧
      isAudioFile p.1 = true ∧
      p.2 ∉ namesOf [⟨"A - T.mp3", some ⟨some "A", some "T"⟩⟩] ∧
      sanitize_filename "Linux" p.2 = p.2 ∧
      p.2 ∉ [("A - T.mp3", "b.mp3")].map Prod.fst) ∧
    (undo_rename "Linux" [("A - T.mp3", "b.mp3")]
        [⟨"A - T.mp3", some ⟨some "A", some "T"⟩⟩] =
      restoreAll [("A - T.mp3", "b.mp3")] [⟨"A - T.mp3", some ⟨some "A", some "T"⟩⟩] ∧
     ∀ p ∈ [("A - T.mp3", "b.mp3")],
       ∀ f ∈ [(⟨"A - T.mp3", some ⟨some "A", some "T"⟩⟩ : FsFile)], f.name = p.1 →
         { f with name := p.2 } ∈
           undo_rename "Linux" [("A - T.mp3", "b.mp3")]
             [⟨"A - T.mp3", some ⟨some "A", some "T"⟩⟩]) :=
  ⟨by decide, by decide, by decide, by decide,
   c4_undo_restores "Linux" [⟨"A - T.mp3", some ⟨some "A", some "T"⟩⟩]
     [("A - T.mp3", "b.mp3")] (by decide) (by decide) (by decide) (by decide)⟩

/-- C4: the claim as stated is false: for the directory `dotDir` (one file
named `".b.mp3"` with real tags), the rename pass renames it to
`"A - T.mp3"`, and `undo_rename` — with no external interference — restores
it to `"b.mp3"`, not to its exact pre-pass name `".b.mp3"` (POSIX
sanitization strips the leading dot of the original name). -/
theorem c4_counterexample :
    (rename_files "Linux" dotDir).2 = [("A - T.mp3", ".b.mp3")] ∧
    namesOf (undo_rename "Linux" (rename_files "Linux" dotDir).2
      (rename_files "Linux" dotDir).1) = ["b.mp3"] ∧
    (".b.mp3" : String) ≠ "b.mp3" := by
  refine ⟨by decide, by decide, by decide⟩

/-! ## C5 -/

theorem strlen_append (a b : String) : (a ++ b).length = a.length + b.length := by
  show (a.data ++ b.data).length = a.data.length + b.data.length
  exact List.length_append a.data b.data

theorem pySplitext_join (s : String) : (pySplitext s).1 ++ (pySplitext s).2 = s := by
  have h : (splitextData s.data).1 ++ (splitextData s.data).2 = s.data := by
    unfold splitextData
    cases hf : s.data.reverse.findIdx? (· = '.') with
    | none => simp
    | some ri =>
      by_cases hall : (s.data.take (s.data.length - 1 - ri)).all (· = '.')
      · simp only [hall, if_true]
        simp
      · simp only [hall, Bool.false_eq_true, if_false]
        exact List.take_append_drop _ _
  show (⟨(splitextData s.data).1 ++ (splitextData s.data).2⟩ : String) = s
  rw [h]

/-- C5 (amended): sanitization is deterministic for a fixed OS dialect; a
name whose stripped form exceeds 255 characters (Python `len`, i.e.
characters, not bytes) with an extension of at most 253 characters is
truncated to exactly 254 characters — `255 - len(ext) - 1` stem characters
plus the extension — not 255; and a name whose resulting stem is empty
becomes `"audio_file"` plus the extension. -/
theorem c5_sanitize_props :
    (∀ (os_type s1 s2 : String), s1 = s2 →
        sanitize_filename os_type s1 = sanitize_filename os_type s2) ∧
    (∀ (os_type s : String), 255 < (sanitizePre os_type s).length →
        (pySplitext (sanitizePre os_type s)).2.length ≤ 253 →
        (sanitize_filename os_type s).length = 254) ∧
    (∀ (os_type s : String), truncatedBase os_type s = "" →
        sanitize_filename os_type s =
          "audio_file" ++ (pySplitext (sanitizePre os_type s)).2) := by
  refine ⟨fun T s1 s2 h => by rw [h], ?_, ?_⟩
  · intro T s hlen hext
    have hj := pySplitext_join (sanitizePre T s)
    have hlens : (pySplitext (sanitizePre T s)).1.length +
        (pySplitext (sanitizePre T s)).2.length = (sanitizePre T s).length := by
      have h2 := strlen_append (pySplitext (sanitizePre T s)).1
        (pySplitext (sanitizePre T s)).2
      rw [hj] at h2
      omega
    have hknn : ¬ ((255 : Int) - (pySplitext (sanitizePre T s)).2.length - 1 < 0) := by
      have : ((pySplitext (sanitizePre T s)).2.length : Int) ≤ 253 := by exact_mod_cast hext
      omega
    have htb : truncatedBase T s =
        ⟨(pySplitext (sanitizePre T s)).1.data.take
          (((255 : Int) - (pySplitext (sanitizePre T s)).2.length - 1).toNat)⟩ := by
      simp only [truncatedBase, pySliceTo, hlen, if_true]
      rw [if_neg hknn]
    have htoNat : ((255 : Int) - (pySplitext (sanitizePre T s)).2.length - 1).toNat =
        254 - (pySplitext (sanitizePre T s)).2.length := by
      omega
    have hblen : (pySplitext (sanitizePre T s)).1.data.length =
        (pySplitext (sanitizePre T s)).1.length := rfl
    have htblen : (truncatedBase T s).length =
        254 - (pySplitext (sanitizePre T s)).2.length := by
      rw [htb]
      show ((pySplitext (sanitizePre T s)).1.data.take _).length = _
      rw [List.length_take, htoNat, hblen]
      omega
    have hnb : truncatedBase T s ≠ "" := by
      intro he
      rw [he] at htblen
      have h0 : ("" : String).length = 0 := rfl
      rw [h0] at htblen
      omega
    simp only [sanitize_filename, hlen, if_true]
    rw [if_neg hnb, strlen_append, htblen]
    omega
  · intro T s h
    simp only [sanitize_filename]
    rw [if_pos h]

set_option maxRecDepth 40000 in
theorem c5_witness :
    (sanitize_filename "Linux" "x.mp3" = sanitize_filename "Linux" "x.mp3") ∧
    (255 < (sanitizePre "Linux" longName).length ∧
     (pySplitext (sanitizePre "Linux" longName)).2.length ≤ 253 ∧
     (sanitize_filename "Linux" longName).length = 254) ∧
    (truncatedBase "Linux" "" = "" ∧
     sanitize_filename "Linux" "" =
       "audio_file" ++ (pySplitext (sanitizePre "Linux" "")).2) :=
  ⟨c5_sanitize_props.1 "Linux" "x.mp3" "x.mp3" rfl,
   ⟨by decide, by decide,
    c5_sanitize_props.2.1 "Linux" longName (by decide) (by decide)⟩,
   ⟨by decide, c5_sanitize_props.2.2 "Linux" "" (by decide)⟩⟩

set_option maxRecDepth 40000 in
/-- C5: the claim as stated is false: `longName` (a 300-character stem plus
`.mp3`) sanitizes, on the POSIX dialect, to a name of exactly 254
characters (also 254 UTF-8 bytes, the name being ASCII), not 255. -/
theorem c5_counterexample :
    255 < (sanitizePre "Linux" longName).length ∧
    (sanitize_filename "Linux" longName).length = 254 ∧
    (254 : Nat) ≠ 255 := by
  refine ⟨by decide, by decide, by decide⟩

/-! ## C8 -/

theorem m4a_pair_write_mem (m : Metadata) (nk tk atom : String) (k : String) (v : M4AVal)
    (h : (k, v) ∈ m4a_pair_write m nk tk atom) :
    k = atom ∧ ∃ pv, mget m nk = some pv := by
  unfold m4a_pair_write at h
  cases h1 : mget m nk with
  | none =>
    simp only [h1] at h
    exact absurd h (List.not_mem_nil _)
  | some w =>
    simp only [h1] at h
    refine ?_
    cases h2 : pyInt w with
    | none =>
      simp only [h2] at h
      exact absurd h (List.not_mem_nil _)
    | some track =>
      simp only [h2] at h
      cases h3 : (match mget m tk with
                  | none => some (0 : Int)
                  | some tv => pyInt tv) with
      | none =>
        simp only [h3] at h
        exact absurd h (List.not_mem_nil _)
      | some total =>
        simp only [h3, List.mem_singleton, Prod.mk.injEq] at h
        exact ⟨h.1, w, rfl⟩

/-- C8 (amended): in every format branch of `_update_audio_metadata`, a tag
is written only for a metadata key that is present — absent or optional
fields are never mutated; the written value is the present value (so a
present-but-empty field, as the recognizer produces for a matched track
lacking position data, IS written, as an empty string). -/
theorem c8_absent_not_mutated :
    (∀ (m : Metadata) (k s : String), (k, s) ∈ mp3_writes m →
        ∃ mk v, (k, mk) ∈ mp3_frames ∧ mget m mk = some v ∧ s = mp3_text m mk v) ∧
    (∀ (m : Metadata) (k s : String), (k, s) ∈ update_flac_fields m →
        ∃ mk v, (mk, k) ∈ flac_field_mapping ∧ mget m mk = some v ∧ s = pyStr v) ∧
    (∀ (m : Metadata) (k : String) (v : M4AVal), (k, v) ∈ m4a_writes m →
        (∃ mk pv, (mk, k) ∈ m4a_field_mapping ∧ mget m mk = some pv ∧
          v = M4AVal.val pv) ∨
        (k = "trkn" ∧ ∃ pv, mget m "tracknumber" = some pv) ∨
        (k = "disk" ∧ ∃ pv, mget m "discnumber" = some pv)) ∧
    (∀ (m : Metadata) (k : String) (v : PyVal), (k, v) ∈ update_generic_fields m →
        k ∉ generic_excluded ∧ ∃ w, (k, w) ∈ m ∧ v = reduceListVal w) := by
  refine ⟨?_, ?_, ?_, ?_⟩
  · intro m k s h
    unfold mp3_writes at h
    obtain ⟨⟨a, b⟩, hp, hf⟩ := List.mem_filterMap.mp h
    cases hv : mget m b with
    | none => rw [hv] at hf; cases hf
    | some v =>
      rw [hv] at hf
      simp only [Option.map_some', Option.some.injEq, Prod.mk.injEq] at hf
      obtain ⟨h1, h2⟩ := hf
      subst h1
      exact ⟨b, v, hp, hv, h2.symm⟩
  · intro m k s h
    unfold update_flac_fields at h
    obtain ⟨⟨a, b⟩, hp, hf⟩ := List.mem_filterMap.mp h
    cases hv : mget m a with
    | none => rw [hv] at hf; cases hf
    | some v =>
      rw [hv] at hf
      simp only [Option.map_some', Option.some.injEq, Prod.mk.injEq] at hf
      obtain ⟨h1, h2⟩ := hf
      subst h1
      exact ⟨a, v, hp, hv, h2.symm⟩
  · intro m k v h
    unfold m4a_writes at h
    rcases List.mem_append.mp h with h1 | h2
    · rcases List.mem_append.mp h1 with h1a | h1b
      · left
        obtain ⟨⟨a, b⟩, hp, hf⟩ := List.mem_filterMap.mp h1a
        cases hv : mget m a with
        | none => rw [hv] at hf; cases hf
        | some w =>
          rw [hv] at hf
          simp only [Option.map_some', Option.some.injEq, Prod.mk.injEq] at hf
          obtain ⟨h1, h2⟩ := hf
          subst h1
          exact ⟨a, w, hp, hv, h2.symm⟩
      · right; left
        exact m4a_pair_write_mem m "tracknumber" "totaltracks" "trkn" k v h1b
    · right; right
      exact m4a_pair_write_mem m "discnumber" "totaldiscs" "disk" k v h2
  · intro m k v h
    unfold update_generic_fields at h
    obtain ⟨⟨a, w⟩, hp, hf⟩ := List.mem_filterMap.mp h
    by_cases he : a ∈ generic_excluded
    · simp only [he, if_pos] at hf
      cases hf
    · simp only [he, if_neg, Option.some.injEq, Prod.mk.injEq, not_false_iff] at hf
      obtain ⟨h1, h2⟩ := hf
      subst h1
      exact ⟨he, w, hp, h2.symm⟩

theorem c8_witness :
    (("TIT2", "X") ∈ mp3_writes [("title", PyVal.str "X")] ∧
      ∃ mk v, ("TIT2", mk) ∈ mp3_frames ∧
        mget [("title", PyVal.str "X")] mk = some v ∧
        "X" = mp3_text [("title", PyVal.str "X")] mk v) ∧
    (("artist", "A") ∈ update_flac_fields [("artist", PyVal.str "A")] ∧
      ∃ mk v, (mk, "artist") ∈ flac_field_mapping ∧
        mget [("artist", PyVal.str "A")] mk = some v ∧ "A" = pyStr v) ∧
    (("trkn", M4AVal.pair 3 0) ∈ m4a_writes [("tracknumber", PyVal.nat 3)] ∧
      ((∃ mk pv, (mk, "trkn") ∈ m4a_field_mapping ∧
          mget [("tracknumber", PyVal.nat 3)] mk = some pv ∧
          M4AVal.pair 3 0 = M4AVal.val pv) ∨
       ("trkn" = "trkn" ∧ ∃ pv, mget [("tracknumber", PyVal.nat 3)] "tracknumber" = some pv) ∨
       ("trkn" = "disk" ∧ ∃ pv, mget [("tracknumber", PyVal.nat 3)] "discnumber" = some pv))) ∧
    (("composer", PyVal.str "C") ∈ update_generic_fields [("composer", PyVal.str "C")] ∧
      ("composer" ∉ generic_excluded ∧
        ∃ w, ("composer", w) ∈ [("composer", PyVal.str "C")] ∧
          PyVal.str "C" = reduceListVal w)) :=
  ⟨⟨by decide, c8_absent_not_mutated.1 [("title", PyVal.str "X")] "TIT2" "X" (by decide)⟩,
   ⟨by decide,
    c8_absent_not_mutated.2.1 [("artist", PyVal.str "A")] "artist" "A" (by decide)⟩,
   ⟨by decide,
    c8_absent_not_mutated.2.2.1 [("tracknumber", PyVal.nat 3)] "trkn"
      (M4AVal.pair 3 0) (by decide)⟩,
   ⟨by decide,
    c8_absent_not_mutated.2.2.2 [("composer", PyVal.str "C")] "composer"
      (PyVal.str "C") (by decide)⟩⟩

/-- C8: the claim as stated is false: for metadata assembled by
`_recognize_song` from a release whose matching track lacks its position
key, `tracknumber` is present with value `""` and the FLAC branch writes
the logical field `tracknumber` as an empty string. -/
theorem c8_counterexample :
    ("tracknumber", "") ∈ update_flac_fields metaEmptyTrack := by
  decide
